import Mathlib

/-!
Verification development for the CIBIL report analyzer (`app.py`).

The Python source is shallowly embedded in Lean.  Strings are handled at the
`List Char` level; machine `float` rounding that Python performs inside
`int(float(x))` is modeled exactly by `floatRound` (round to nearest, ties to
even, at 53 bits of mantissa); loosely typed JSON leaves are modeled as
`Option String`; the one uncaught exception in `analyze_report` (the bare
`datetime.strptime` on `DateOpened`) is modeled by an `Except` result.
All recursion is structural or fuel driven so that every definition evaluates
inside the kernel.
-/

namespace Cibil

/-- One decimal digit (0..9) rendered as its ASCII character, as Python
string formatting renders digits. -/
def digitChar (d : Nat) : Char := Char.ofNat (48 + d)

/-- Fuel-driven most-significant-digit-first decimal rendering of a natural
number; `fuel = n + 1` always suffices since the argument shrinks by a factor
of ten at each step.  Mirrors how Python `str`/`format` render an `int`. -/
def natToDigitsAux : Nat → Nat → List Char
  | 0, _ => []
  | fuel + 1, n =>
    if n < 10 then [digitChar n]
    else natToDigitsAux fuel (n / 10) ++ [digitChar (n % 10)]

/-- Decimal digit string of a natural number (Python `str(n)` for `n ≥ 0`). -/
def natToDigits (n : Nat) : List Char := natToDigitsAux (n + 1) n

/-- Decimal digit string of a natural number, as a `String`. -/
def natToStr (n : Nat) : String := ⟨natToDigits n⟩

/-- Value of a digit string read left to right (the numeric value Python
obtains when parsing a plain decimal literal). -/
def digitsToNat (l : List Char) : Nat :=
  l.foldl (fun a c => a * 10 + (c.toNat - 48)) 0

/-- Grouping step of Python's `"{:,}"` format, working on the reversed digit
string: after every three characters a comma is inserted, provided more
characters remain. -/
def group3Rev : List Char → List Char
  | a :: b :: c :: d :: rest => a :: b :: c :: ',' :: group3Rev (d :: rest)
  | l => l

/-- Thousands grouping of Python's `"{:,}"` format on a digit string. -/
def commafy (l : List Char) : List Char := (group3Rev l.reverse).reverse

/-- Fuel-driven bit length of a natural number (`n.bitLen` would be the usual
name; written with fuel so it reduces in the kernel). -/
def bitLenAux : Nat → Nat → Nat
  | 0, _ => 0
  | fuel + 1, n => if n = 0 then 0 else bitLenAux fuel (n / 2) + 1

/-- Bit length: `bitLen n = k` iff `2^(k-1) ≤ n < 2^k` (and `bitLen 0 = 0`). -/
def bitLen (n : Nat) : Nat := bitLenAux (n + 1) n

/-- Rounding of a natural number to the nearest IEEE-754 double
(round-to-nearest, ties-to-even, 53-bit mantissa).  This is the value change
Python silently applies inside `int(float(x))` in `safe_int` and inside
`f"Rs.{xi:,}"` in `r`.  Overflow to infinity (beyond about `2^1024`) is not
modeled; every quantity in this development stays far below that. -/
def floatRound (n : Nat) : Nat :=
  if n ≤ 9007199254740992 then n
  else
    let k := bitLen n - 53
    let q := n / 2 ^ k
    let rem := n % 2 ^ k
    let half := 2 ^ (k - 1)
    if rem < half then q * 2 ^ k
    else if half < rem then (q + 1) * 2 ^ k
    else if q % 2 = 0 then q * 2 ^ k else (q + 1) * 2 ^ k

/-- Fuel-driven substring replacement: every occurrence of the (nonempty)
pattern is removed, scanning left to right, exactly like Python
`str.replace(pat, "")`.  `fuel = length of the scanned list` suffices since
each step consumes at least one character. -/
def replaceAllAux (pat : List Char) : Nat → List Char → List Char
  | _, [] => []
  | 0, s => s
  | fuel + 1, c :: cs =>
    if pat.isPrefixOf (c :: cs) then replaceAllAux pat fuel ((c :: cs).drop pat.length)
    else c :: replaceAllAux pat fuel cs

/-- Python `s.replace(pat, "")` for a nonempty pattern (an empty pattern is
never used by the source). -/
def replaceAll (pat s : List Char) : List Char :=
  match pat with
  | [] => s
  | _ :: _ => replaceAllAux pat s.length s

/-- The three characters of the mojibake rupee sign literal `"‚Çπ"` that
`safe_int` strips (the UTF-8 bytes of `₹` mis-decoded as cp1252). -/
def rupeeMangled : List Char := [Char.ofNat 0x201A, Char.ofNat 0xC7, Char.ofNat 0x3C0]

/-- The characters of the `"Rs."` prefix stripped by `safe_int` and emitted
by `r`. -/
def rsChars : List Char := ['R', 's', '.']

/-- Whitespace recognized by Python `str.strip()` (the ASCII portion, which
is all the source can produce). -/
def isWS (c : Char) : Bool :=
  c = ' ' || c = '\t' || c = '\n' || c = '\x0d' || c = '\x0b' || c = '\x0c'

/-- Python `str.strip()`: drop leading and trailing whitespace. -/
def pyStrip (s : List Char) : List Char :=
  ((s.dropWhile isWS).reverse.dropWhile isWS).reverse

/-- `l.all Char.isDigit` as a definition of its own, for readability. -/
def allDigits (l : List Char) : Bool := l.all Char.isDigit

/-- Model of Python `int(float(s))` on the decimal-integer fragment of float
literals: a nonempty all-digit string parses to its value rounded to the
nearest double; anything else fails (a failure that `safe_int` turns into its
default).  The wider float syntax (signs, fraction digits, exponents,
underscores) is never produced by the formatting path under study. -/
def pyFloatInt (l : List Char) : Option Nat :=
  if l ≠ [] ∧ allDigits l then some (floatRound (digitsToNat l)) else none

/-- `safe_int` from `app.py` on a string input: strip the mojibake rupee
sign, the `"Rs."` marker and commas, strip whitespace, then `int(float(.))`;
any failure yields the default 0. -/
def safeIntChars (l : List Char) : Nat :=
  let s1 := replaceAll rupeeMangled l
  let s2 := replaceAll rsChars s1
  let s3 := replaceAll [','] s2
  let s4 := pyStrip s3
  match pyFloatInt s4 with
  | some n => n
  | none => 0

/-- `safe_int` from `app.py` on an optional JSON leaf: an absent value (or
JSON null) makes `float` raise, so the default 0 is returned. -/
def safe_int (x : Option String) : Nat :=
  match x with
  | none => 0
  | some s => safeIntChars s.toList

/-- `r` from `app.py`: rupee formatting `f"Rs.{xi:,}"` of a nonnegative
integer, where `xi = safe_int(x, 0)` has already passed through
`int(float(x))` — hence the `floatRound`. -/
def r (n : Nat) : String := ⟨rsChars ++ commafy (natToDigits (floatRound n))⟩

/-! ### Dates

`datetime.date` values are modeled as year/month/day triples compared through
their proleptic Gregorian ordinal, which is exactly how `datetime` compares
dates and subtracts `timedelta(days = k)`. -/

/-- A calendar date as produced by `datetime.strptime(..).date()`. -/
structure PDate where
  y : Nat
  m : Nat
  d : Nat
deriving DecidableEq

/-- Gregorian leap-year rule, as implemented by `datetime`. -/
def isLeap (y : Nat) : Bool := (y % 4 = 0 && y % 100 ≠ 0) || y % 400 = 0

/-- Number of days in a month of a given year (used by `strptime` to validate
the day component). -/
def daysInMonth (y m : Nat) : Nat :=
  if m = 2 then (if isLeap y then 29 else 28)
  else if m = 4 || m = 6 || m = 9 || m = 11 then 30
  else 31

/-- Days before the first of month `m` in a year with leap flag `leap`. -/
def daysBeforeMonth (leap : Bool) (m : Nat) : Nat :=
  let base :=
    if m = 1 then 0 else if m = 2 then 31 else if m = 3 then 59
    else if m = 4 then 90 else if m = 5 then 120 else if m = 6 then 151
    else if m = 7 then 181 else if m = 8 then 212 else if m = 9 then 243
    else if m = 10 then 273 else if m = 11 then 304 else 334
  if leap && m > 2 then base + 1 else base

/-- Proleptic Gregorian ordinal of a date (`datetime.date.toordinal`), the
quantity through which the source compares dates and applies `timedelta`. -/
def toOrd (dt : PDate) : Int :=
  (365 * (dt.y - 1) + (dt.y - 1) / 4 - (dt.y - 1) / 100 + (dt.y - 1) / 400
    + daysBeforeMonth (isLeap dt.y) dt.m + dt.d : Nat)

/-- Split a character list on a separator character (used to decompose a date
literal into the fields a `strptime` format would match). -/
def splitOnChar (sep : Char) : List Char → List (List Char)
  | [] => [[]]
  | c :: cs =>
    match splitOnChar sep cs with
    | [] => [[c]]
    | g :: gs => if c = sep then [] :: g :: gs else (c :: g) :: gs

/-- `strptime` `%Y` field: one to four digits, year at least 1 (year 0 makes
`datetime` raise, i.e. the parse fails). -/
def parseYear (l : List Char) : Option Nat :=
  if l ≠ [] ∧ l.length ≤ 4 ∧ allDigits l ∧ digitsToNat l ≠ 0 then some (digitsToNat l)
  else none

/-- `strptime` `%m` field: one or two digits, value 1..12. -/
def parseMonth (l : List Char) : Option Nat :=
  if l ≠ [] ∧ l.length ≤ 2 ∧ allDigits l ∧ 1 ≤ digitsToNat l ∧ digitsToNat l ≤ 12 then
    some (digitsToNat l)
  else none

/-- `strptime` `%d` field: one or two digits, value 1..31 (calendar validity
against the month is checked afterwards, as `datetime` does). -/
def parseDay (l : List Char) : Option Nat :=
  if l ≠ [] ∧ l.length ≤ 2 ∧ allDigits l ∧ 1 ≤ digitsToNat l ∧ digitsToNat l ≤ 31 then
    some (digitsToNat l)
  else none

/-- `datetime.strptime(s, "%Y-%m-%d").date()` as an option. -/
def parseYMD (l : List Char) : Option PDate :=
  match splitOnChar '-' l with
  | [ys, ms, ds] => do
    let y ← parseYear ys
    let m ← parseMonth ms
    let d ← parseDay ds
    if d ≤ daysInMonth y m then some ⟨y, m, d⟩ else none
  | _ => none

/-- `datetime.strptime(s, "%Y-%m").date()`: the day defaults to 1. -/
def parseYM (l : List Char) : Option PDate :=
  match splitOnChar '-' l with
  | [ys, ms] => do
    let y ← parseYear ys
    let m ← parseMonth ms
    some ⟨y, m, 1⟩
  | _ => none

/-- `datetime.strptime(s, "%d-%m-%Y").date()`. -/
def parseDMY (l : List Char) : Option PDate :=
  match splitOnChar '-' l with
  | [ds, ms, ys] => do
    let y ← parseYear ys
    let m ← parseMonth ms
    let d ← parseDay ds
    if d ≤ daysInMonth y m then some ⟨y, m, d⟩ else none
  | _ => none

/-- `datetime.strptime(s, "%Y/%m/%d").date()`. -/
def parseYMDSlash (l : List Char) : Option PDate :=
  match splitOnChar '/' l with
  | [ys, ms, ds] => do
    let y ← parseYear ys
    let m ← parseMonth ms
    let d ← parseDay ds
    if d ≤ daysInMonth y m then some ⟨y, m, d⟩ else none
  | _ => none

/-- `datetime.strptime(s, "%d/%m/%Y").date()`. -/
def parseDMYSlash (l : List Char) : Option PDate :=
  match splitOnChar '/' l with
  | [ds, ms, ys] => do
    let y ← parseYear ys
    let m ← parseMonth ms
    let d ← parseDay ds
    if d ≤ daysInMonth y m then some ⟨y, m, d⟩ else none
  | _ => none

/-- Python `x or y` on two optional dates (a `None` first argument is falsy). -/
def orOpt (a b : Option PDate) : Option PDate :=
  match a with
  | some x => some x
  | none => b

/-- `to_date` from `app.py`: try the five `strptime` formats in order and
return the first success, `None` if all fail. -/
def to_date (s : String) : Option PDate :=
  orOpt (parseYMD s.toList)
    (orOpt (parseYM s.toList)
      (orOpt (parseDMY s.toList)
        (orOpt (parseYMDSlash s.toList) (parseDMYSlash s.toList))))

/-- Python `str` applied to an optional string value: `str(None) = "None"`. -/
def pyStr (x : Option String) : String :=
  match x with
  | none => "None"
  | some s => s

/-- Python `a or dflt` for a string-or-missing value: `None` and the empty
string are falsy. -/
def pyOr (x : Option String) (dflt : String) : String :=
  match x with
  | none => dflt
  | some s => if s = "" then dflt else s

/-- ASCII lowering, Python `str.lower()` on the labels the source handles. -/
def lowerStr (s : String) : String := ⟨s.toList.map Char.toLower⟩

/-! ### Input data model

The nested JSON input of `analyze_report`, typed.  Scalar JSON leaves are
`Option String` (absent and `null` both become `none`; the bureau reports the
source consumes carry their scalars as strings).  Missing branches are
`none`. -/

/-- One entry of an account's `History48Months` array. -/
structure HistEntry where
  paymentStatus : Option String
  key : Option String
  assetClassificationStatus : Option String
deriving DecidableEq

/-- One `RetailAccountDetails` entry. -/
structure RetailAccount where
  accountType : Option String
  typeAlt : Option String
  institution : Option String
  financer : Option String
  bankName : Option String
  openFlag : Option String
  status : Option String
  installmentAmount : Option String
  lastPayment : Option String
  dateOpened : Option String
  sanctionAmount : Option String
  balance : Option String
  pastDueAmount : Option String
  highCredit : Option String
  accountNumber : Option String
  history48Months : List HistEntry
deriving DecidableEq

/-- One entry of the `Enquiries` array. -/
structure Enquiry where
  enquiryPurpose : Option String
  purpose : Option String
  enquiryDate : Option String
  dateAlt : Option String
deriving DecidableEq

/-- `RetailAccountsSummary`. -/
structure RetailAccountsSummary where
  totalPastDue : Option String
deriving DecidableEq

/-- `IDAndContactInfo.PersonalInfo.Name`. -/
structure NameRec where
  fullName : Option String
deriving DecidableEq

/-- `IDAndContactInfo.PersonalInfo`. -/
structure PersonalInfo where
  name : Option NameRec
deriving DecidableEq

/-- `IDAndContactInfo`. -/
structure IDAndContactInfo where
  personalInfo : Option PersonalInfo
deriving DecidableEq

/-- `CIRReportData`. -/
structure CIRReportData where
  retailAccountDetails : Option (List RetailAccount)
  retailAccountsSummary : Option RetailAccountsSummary
  idAndContactInfo : Option IDAndContactInfo
deriving DecidableEq

/-- One element of `CIRReportDataLst`. -/
structure CIRItem where
  cirReportData : Option CIRReportData
deriving DecidableEq

/-- `CCRResponse`. -/
structure CCRResponse where
  cirReportDataLst : Option (List CIRItem)
deriving DecidableEq

/-- `reportData.credit_report`. -/
structure CreditReportJson where
  ccrResponse : Option CCRResponse
  enquiries : Option (List Enquiry)
deriving DecidableEq

/-- `reportData`. -/
structure ReportDataJson where
  credit_report : Option CreditReportJson
  credit_score : Option String
deriving DecidableEq

/-- The whole JSON object handed to `analyze_report`. -/
structure InputData where
  reportData : Option ReportDataJson
deriving DecidableEq

/-- `data.get("reportData", {}).get("credit_report", {}).get("CCRResponse", {})
.get("CIRReportDataLst", [])` with every missing branch degrading to an empty
container, as the `dict.get` chain does. -/
def getCirList (data : InputData) : List CIRItem :=
  match data.reportData with
  | none => []
  | some rd =>
    match rd.credit_report with
    | none => []
    | some cr =>
      match cr.ccrResponse with
      | none => []
      | some resp => resp.cirReportDataLst.getD []

/-- `cir_list[0].get("CIRReportData", {})`, taken only when `cir_list` is
nonempty (`if cir_list:` in the source). -/
def getCirData (data : InputData) : Option CIRReportData :=
  match getCirList data with
  | [] => none
  | cir :: _ => cir.cirReportData

/-- `cir_data.get("RetailAccountDetails", []) or []`. -/
def extractAccounts (data : InputData) : List RetailAccount :=
  match getCirData data with
  | none => []
  | some cd => cd.retailAccountDetails.getD []

/-- `safe_int(cir_data.get("RetailAccountsSummary", {}).get("TotalPastDue", 0), 0)`,
with the default 0 when the container branch is absent. -/
def extractTotalPastDue (data : InputData) : Nat :=
  match getCirData data with
  | none => 0
  | some cd =>
    match cd.retailAccountsSummary with
    | none => 0
    | some s => safe_int s.totalPastDue

/-- `cir_data.get("IDAndContactInfo", {}).get("PersonalInfo", {}).get("Name", {})
.get("FullName", "N/A")`, with `"N/A"` when the `if cir_list:` block is not
entered. -/
def extractName (data : InputData) : String :=
  match getCirData data with
  | none => "N/A"
  | some cd =>
    match cd.idAndContactInfo with
    | none => "N/A"
    | some idc =>
      match idc.personalInfo with
      | none => "N/A"
      | some pi =>
        match pi.name with
        | none => "N/A"
        | some nm => nm.fullName.getD "N/A"

/-- `credit_report.get("Enquiries", []) or []`. -/
def extractEnquiries (data : InputData) : List Enquiry :=
  match data.reportData with
  | none => []
  | some rd =>
    match rd.credit_report with
    | none => []
    | some cr => cr.enquiries.getD []

/-- `data.get("reportData", {}).get("credit_score", None)`. -/
def extractScore (data : InputData) : Option String :=
  match data.reportData with
  | none => none
  | some rd => rd.credit_score

/-! ### Account classification helpers -/

/-- The mojibake en dash `"‚Äì"` that appears inside the business-loan labels
of the abbreviation table. -/
def dashMangled : String := ⟨[Char.ofNat 0x201A, Char.ofNat 0xC4, Char.ofNat 0xEC]⟩

/-- The mojibake ellipsis `"‚Ä¶"` appended to truncated unknown labels. -/
def ellipsisMangled : String := ⟨[Char.ofNat 0x201A, Char.ofNat 0xC4, Char.ofNat 0xB6]⟩

/-- `abbreviate_account_type` from `app.py`: exact-match table lookup with a
12-character-plus-ellipsis fallback, and `"NA"` for a falsy (empty) label. -/
def abbreviate_account_type (account_type : String) : String :=
  if account_type = "" then "NA"
  else if account_type = "Personal Loan" then "PL"
  else if account_type = "Business Loan " ++ dashMangled ++ " Secured" then "BL Secured"
  else if account_type =
      "Business Loan " ++ dashMangled ++ " Priority Sector " ++ dashMangled ++ " Agriculture" then
    "BL Agri"
  else if account_type =
      "Business Loan " ++ dashMangled ++ " Priority Sector " ++ dashMangled ++ " Others" then
    "BL PS Other"
  else if account_type = "Credit Card" then "CC"
  else if account_type = "Auto Loan" then "AL"
  else if account_type = "Education Loan" then "EL"
  else if account_type = "Home Loan" then "HL"
  else if account_type = "Loan Against Property" then "LAP"
  else if account_type = "Gold Loan" then "GL"
  else if account_type = "Consumer Loan" then "CL"
  else ⟨account_type.toList.take 12⟩ ++ ellipsisMangled

/-- `acc.get("AccountType") or acc.get("Type") or "Other"`. -/
def rawType (acc : RetailAccount) : String :=
  pyOr acc.accountType (pyOr acc.typeAlt "Other")

/-- `acc.get("Institution") or acc.get("Financer") or acc.get("BankName") or "N/A"`. -/
def lenderOf (acc : RetailAccount) : String :=
  pyOr acc.institution (pyOr acc.financer (pyOr acc.bankName "N/A"))

/-- `(acc.get("Open") == "Yes") or (acc.get("Status") or "").lower() == "open"`. -/
def isOpenAcc (acc : RetailAccount) : Bool :=
  (acc.openFlag == some "Yes") || (lowerStr (pyOr acc.status "") == "open")

/-- The effective EMI: installment amount if positive, else last payment if
positive, else 0. -/
def emiOf (acc : RetailAccount) : Nat :=
  let installment_amt := safe_int acc.installmentAmount
  let last_payment_amt := safe_int acc.lastPayment
  if 0 < installment_amt then installment_amt
  else if 0 < last_payment_amt then last_payment_amt
  else 0

/-- Python `pat in s` on strings: `pat` occurs as a contiguous substring. -/
def containsSub (pat : List Char) : List Char → Bool
  | [] => pat.isEmpty
  | c :: cs => pat.isPrefixOf (c :: cs) || containsSub pat cs

/-- `"credit card" in str(acc_type).lower()`. -/
def isCCtype (acc : RetailAccount) : Bool :=
  containsSub ("credit card".toList) ((lowerStr (rawType acc)).toList)

/-- `any(h.get("AssetClassificationStatus") == "LSS" for h in history)`. -/
def hasLSS (acc : RetailAccount) : Bool :=
  acc.history48Months.any (fun h => h.assetClassificationStatus == some "LSS")

/-- `str(acc.get("AccountNumber"))`: the write-off set key. -/
def idOf (acc : RetailAccount) : String := pyStr acc.accountNumber

/-! ### The analysis loop -/

/-- Bump a key of an insertion-ordered multiset by `v`, creating the key at
the end if absent.  This is the behavior of `defaultdict(int)` /
`Counter` under `m[k] += v`. -/
def bump (k : String) (v : Nat) : List (String × Nat) → List (String × Nat)
  | [] => [(k, v)]
  | (k', v') :: rest => if k' = k then (k', v' + v) :: rest else (k', v') :: bump k v rest

/-- Value of a key in an insertion-ordered multiset (0 when absent). -/
def lookupN (k : String) : List (String × Nat) → Nat
  | [] => 0
  | (k', v) :: rest => if k' = k then v else lookupN k rest

/-- Add an element to a set kept as a duplicate-free list (`set.add`). -/
def insertIfAbsent (x : String) (l : List String) : List String :=
  if x ∈ l then l else x :: l

/-- The mutable accumulators of the `for acc in accounts` loop. -/
structure LoopState where
  active_count : Nat
  active_sanction_total : Nat
  total_emi : Nat
  missed_count : Nat
  dpd30_6m : Nat
  dpd30_12m : Nat
  max_dpd_12m : Nat
  write_off_accounts : List String
  portfolio : List (String × Nat)
  util_ratios : List (Nat × Nat)
  lender_exposure : List (String × Nat)
  loans_availed_last_3m : Nat
  pl_bl_availed_last_6m : Nat
deriving DecidableEq

/-- All accumulators start at zero / empty. -/
def initState : LoopState :=
  ⟨0, 0, 0, 0, 0, 0, 0, [], [], [], [], 0, 0⟩

/-- The period date of a history entry:
`to_date(dkey) or to_date(f"{dkey}-01")` with `dkey = h.get("key")`. -/
def periodDate (h : HistEntry) : Option PDate :=
  orOpt (to_date (pyStr h.key)) (to_date (pyStr h.key ++ "-01"))

/-- The delinquency counters touched by one `History48Months` entry, as the
tuple `(missed_count, dpd30_6m, dpd30_12m, max_dpd_12m)`.  Mirrors the body
of the inner `for h in acc.get("History48Months", [])` loop: parse the DPD
and the period key (raw, then with `"-01"` appended), skip the entry when no
date parses, count a missed payment when DPD > 0, and update the 12-month /
6-month windows relative to the reference ordinal. -/
def histCore (refOrd : Int) (p : Nat × Nat × Nat × Nat) (h : HistEntry) :
    Nat × Nat × Nat × Nat :=
  let dpd := safe_int h.paymentStatus
  match periodDate h with
  | none => p
  | some d =>
    let (missed, d6, d12, maxd) := p
    let missed := if 0 < dpd then missed + 1 else missed
    if refOrd - 365 ≤ toOrd d then
      let maxd := max maxd dpd
      if 30 ≤ dpd then
        let d6 := if refOrd - 180 ≤ toOrd d then d6 + 1 else d6
        (missed, d6, d12 + 1, maxd)
      else (missed, d6, d12, maxd)
    else (missed, d6, d12, maxd)

/-- The `loans_availed_last_3m` / `pl_bl_availed_last_6m` increments an
account contributes.  The `none` branch of the inner parse is unreachable in
`analyze_report`, which models the uncaught `strptime` exception separately
(`accountAborts`). -/
def loanCounts (refOrd : Int) (acc : RetailAccount) : Nat × Nat :=
  match acc.dateOpened with
  | none => (0, 0)
  | some s =>
    if s = "" then (0, 0)
    else
      match parseYMD s.toList with
      | none => (0, 0)
      | some dt =>
        ((if refOrd - 90 ≤ toOrd dt then 1 else 0),
         (if refOrd - 180 ≤ toOrd dt ∧
             (containsSub ("Personal Loan".toList) ((rawType acc).toList) ∨
              containsSub ("Business Loan".toList) ((rawType acc).toList)) then 1 else 0))

/-- One iteration of the `for acc in accounts` loop.  The Python body updates
the accumulators sequentially; the blocks touch pairwise disjoint
accumulators, so they are written here as one simultaneous record update,
field by field in source order. -/
def processAccount (refOrd : Int) (st : LoopState) (acc : RetailAccount) : LoopState :=
  let acc_type := rawType acc
  let lender := lenderOf acc
  let is_open := isOpenAcc acc
  let emi := emiOf acc
  let sanction := safe_int acc.sanctionAmount
  let lc := loanCounts refOrd acc
  let p := acc.history48Months.foldl (histCore refOrd)
    (st.missed_count, st.dpd30_6m, st.dpd30_12m, st.max_dpd_12m)
  { active_count := if is_open then st.active_count + 1 else st.active_count
    active_sanction_total :=
      if is_open then st.active_sanction_total + sanction else st.active_sanction_total
    total_emi := if is_open then st.total_emi + emi else st.total_emi
    missed_count := p.1
    dpd30_6m := p.2.1
    dpd30_12m := p.2.2.1
    max_dpd_12m := p.2.2.2
    write_off_accounts :=
      if hasLSS acc then insertIfAbsent (idOf acc) st.write_off_accounts
      else st.write_off_accounts
    portfolio := bump acc_type 1 st.portfolio
    util_ratios :=
      if isCCtype acc ∧ 0 < safe_int acc.highCredit then
        st.util_ratios ++ [(safe_int acc.balance, safe_int acc.highCredit)]
      else st.util_ratios
    lender_exposure :=
      if is_open then bump lender sanction st.lender_exposure else st.lender_exposure
    loans_availed_last_3m := st.loans_availed_last_3m + lc.1
    pl_bl_availed_last_6m := st.pl_bl_availed_last_6m + lc.2 }

/-- One iteration of the `for e in enquiries` loop: the per-purpose histogram
always grows; the 3-month counter grows when one of the two date fields
parses and falls within the trailing 90 days. -/
def enqStep (refOrd : Int) (p : Nat × List (String × Nat)) (e : Enquiry) :
    Nat × List (String × Nat) :=
  let purpose := pyOr e.enquiryPurpose (pyOr e.purpose "NA")
  let bd := bump purpose 1 p.2
  match orOpt (to_date (pyStr e.enquiryDate)) (to_date (pyStr e.dateAlt)) with
  | none => (p.1, bd)
  | some d => (if refOrd - 90 ≤ toOrd d then p.1 + 1 else p.1, bd)

/-! ### Utilization

`util_ratios` keeps the exact `(balance, limit)` pairs; the mean of the
ratios and the 2-decimal rounding are computed in exact rational arithmetic
over `Nat` pairs.  Python computes the same quantities through binary
floating point; on the values this development evaluates (and on any value
exactly representable as a double) the two agree. -/

/-- Exact sum of the fractions `b/l` as an unreduced fraction
`(numerator, denominator)`. -/
def sumFrac : List (Nat × Nat) → Nat × Nat
  | [] => (0, 1)
  | (b, l) :: rest =>
    let s := sumFrac rest
    (b * s.2 + s.1 * l, l * s.2)

/-- `round(v, 2)` scaled by 100: the nearest integer to `(pn/pd) * 100`,
ties to even, for a nonnegative exact value `pn/pd`. -/
def roundHundredths (pn pd : Nat) : Nat :=
  let q := pn * 100 / pd
  let rem := pn * 100 % pd
  if 2 * rem < pd then q
  else if pd < 2 * rem then q + 1
  else if q % 2 = 0 then q else q + 1

/-- Render the value `n2 / 100` the way Python `f"{v}"` renders the float
`round(v, 2)`: at least one fractional digit, no trailing zero in the
hundredths place. -/
def fmtRounded (n2 : Nat) : String :=
  let i := n2 / 100
  let fr := n2 % 100
  if fr = 0 then natToStr i ++ ".0"
  else if fr % 10 = 0 then natToStr i ++ "." ++ natToStr (fr / 10)
  else if fr < 10 then natToStr i ++ ".0" ++ natToStr fr
  else natToStr i ++ "." ++ natToStr fr

/-- `f"{round(np.mean(util_ratios) * 100, 2)}%" if util_ratios else "N/A"`. -/
def utilString (l : List (Nat × Nat)) : String :=
  match l with
  | [] => "N/A"
  | _ :: _ =>
    let s := sumFrac l
    fmtRounded (roundHundredths (s.1 * 100) (s.2 * l.length)) ++ "%"

/-! ### Top lenders -/

/-- The descending-exposure order used by `Counter.most_common`. -/
def expGE (a b : String × Nat) : Prop := b.2 ≤ a.2

instance : DecidableRel expGE := fun a b => Nat.decLe b.2 a.2

instance : IsTotal (String × Nat) expGE :=
  ⟨fun a b => Or.symm (Nat.le_total a.2 b.2)⟩

instance : IsTrans (String × Nat) expGE :=
  ⟨fun _ _ _ h1 h2 => Nat.le_trans h2 h1⟩

/-- `Counter.most_common(3)`: the three largest entries by value, stably
sorted in descending order of value. -/
def mostCommon3 (l : List (String × Nat)) : List (String × Nat) :=
  (List.insertionSort expGE l).take 3

/-! ### The result record -/

/-- The `results` dictionary of `analyze_report`.  The two display-only
`pandas` row tables (`accounts_df`, `missed_df`) are presentation artifacts
and are not part of this embedding. -/
structure MetricsResult where
  name : String
  score : String
  total_past_due : Nat
  active_loans : Nat
  active_sanction_total : Nat
  total_emi : Nat
  missed_payments : Nat
  dpd30_6m : Nat
  dpd30_12m : Nat
  max_dpd_12m : Nat
  writeoff_count : Nat
  portfolio : List (String × Nat)
  utilization : String
  top_lenders : List (String × Nat)
  enquiries_last_3m : Nat
  enquiry_breakdown : List (String × Nat)
  pl_bl_availed_last_6m : Nat
  loans_availed_last_3m : Nat
deriving DecidableEq

/-- The full computation of `analyze_report` in the runs that do not raise:
extract, fold the account loop, fold the enquiry loop, assemble. -/
def analyzeCore (data : InputData) (reference_date : PDate) : MetricsResult :=
  let accounts := extractAccounts data
  let enquiries := extractEnquiries data
  let refOrd := toOrd reference_date
  let fin := accounts.foldl (processAccount refOrd) initState
  let enq := enquiries.foldl (enqStep refOrd) (0, [])
  { name := extractName data
    score := (extractScore data).getD "N/A"
    total_past_due := floatRound (extractTotalPastDue data)
    active_loans := fin.active_count
    active_sanction_total := fin.active_sanction_total
    total_emi := fin.total_emi
    missed_payments := fin.missed_count
    dpd30_6m := fin.dpd30_6m
    dpd30_12m := fin.dpd30_12m
    max_dpd_12m := fin.max_dpd_12m
    writeoff_count := fin.write_off_accounts.length
    portfolio := fin.portfolio
    utilization := utilString fin.util_ratios
    top_lenders := mostCommon3 fin.lender_exposure
    enquiries_last_3m := enq.1
    enquiry_breakdown := enq.2
    pl_bl_availed_last_6m := fin.pl_bl_availed_last_6m
    loans_availed_last_3m := fin.loans_availed_last_3m }

/-- The one statement of `analyze_report` that can raise past the function
boundary: `datetime.strptime(date_opened_str, '%Y-%m-%d')` on a present,
truthy, unparseable `DateOpened`.  Everything else is wrapped in
`try/except`. -/
def accountAborts (acc : RetailAccount) : Bool :=
  match acc.dateOpened with
  | none => false
  | some s => s ≠ "" && (parseYMD s.toList).isNone

/-- `analyze_report` from `app.py`.  A raised `ValueError` escapes the
function, so the caller observes an exception exactly when some account makes
the bare `strptime` fail; since no earlier effect of the loop is observable
after a raise, the run is modeled as `Except.error`.  All other runs return
the assembled results record. -/
def analyze_report (data : InputData) (reference_date : PDate) :
    Except Unit MetricsResult :=
  if (extractAccounts data).any accountAborts then Except.error ()
  else Except.ok (analyzeCore data reference_date)



/-! ### Exposure specification -/

/-- The total sanctioned exposure of a lender over open accounts. -/
def lenderExposureSum (data : InputData) (x : String) : Nat :=
  (((extractAccounts data).filter (fun a => isOpenAcc a && lenderOf a == x)).map
    (fun a => safe_int a.sanctionAmount)).sum
/-! ### Concrete inputs used by the claim instances -/

/-- An account record with every field absent and an empty history. -/
def emptyAccount : RetailAccount :=
  ⟨none, none, none, none, none, none, none, none, none, none, none, none, none, none, none, []⟩

/-- Wrap a list of accounts into the full nested report shape (no enquiries,
no score, no summary, no identity block). -/
def mkInput (accs : List RetailAccount) : InputData :=
  ⟨some ⟨some ⟨some ⟨some [⟨some ⟨some accs, none, none⟩⟩]⟩, none⟩, none⟩⟩

/-- The reference date used by the concrete instances. -/
def refDate : PDate := ⟨2024, 12, 31⟩

/-- An input whose `CIRReportDataLst` path is missing entirely
(`reportData` itself is absent). -/
def noReportInput : InputData := ⟨none⟩

/-- An account whose `DateOpened` is present but written day-month-year. -/
def accBadDate : RetailAccount := { emptyAccount with dateOpened := some "14-06-2024" }

/-- One account with the unparseable `DateOpened` (claim C2). -/
def badDateInput : InputData := mkInput [accBadDate]

/-- A closed credit card with limit 50000 and balance 25000 (Scenario B). -/
def closedCardAccount : RetailAccount :=
  { emptyAccount with
      accountType := some "Credit Card"
      highCredit := some "50000"
      balance := some "25000" }

/-- The Scenario B report: exactly the one closed credit card. -/
def scenarioBInput : InputData := mkInput [closedCardAccount]

/-- A report with one account that is not a credit card (for the
utilization "N/A" case). -/
def noCardInput : InputData := mkInput [emptyAccount]

/-- One history entry: DPD 45 in the month 2024-06-14, which is 200 days
before `refDate` (Scenario C). -/
def dpd45Entry : HistEntry := ⟨some "45", some "2024-06-14", none⟩

/-- The Scenario C account: a single history entry with DPD 45. -/
def dpd45Account : RetailAccount := { emptyAccount with history48Months := [dpd45Entry] }

/-- The Scenario C report. -/
def scenarioCInput : InputData := mkInput [dpd45Account]

/-- An `LSS`-flagged history entry with no other fields. -/
def lssEntry : HistEntry := ⟨none, none, some "LSS"⟩

/-- An account with an identifier and two months flagged `LSS`. -/
def doubleLssAccount : RetailAccount :=
  { emptyAccount with accountNumber := some "ACC1", history48Months := [lssEntry, lssEntry] }

/-- The write-off dedup report: one account, two `LSS` months. -/
def doubleLssInput : InputData := mkInput [doubleLssAccount]

/-- First of two distinct accounts without `AccountNumber`, one `LSS` month. -/
def noNumberLssAccount1 : RetailAccount :=
  { emptyAccount with institution := some "Bank One", history48Months := [lssEntry] }

/-- Second of two distinct accounts without `AccountNumber`, one `LSS` month. -/
def noNumberLssAccount2 : RetailAccount :=
  { emptyAccount with institution := some "Bank Two", history48Months := [lssEntry] }

/-- The identifier-collision report of claim C9. -/
def collidingLssInput : InputData := mkInput [noNumberLssAccount1, noNumberLssAccount2]

/-- One account with raw type label "Personal Loan". -/
def personalLoanAccount : RetailAccount :=
  { emptyAccount with accountType := some "Personal Loan" }

/-- The portfolio-key report of claim C6. -/
def personalLoanInput : InputData := mkInput [personalLoanAccount]

/-- An open account at a named lender with a given sanctioned amount. -/
def openAccountAt (name amt : String) : RetailAccount :=
  { emptyAccount with
      institution := some name
      openFlag := some "Yes"
      sanctionAmount := some amt }

/-- Four open accounts at four lenders (claim C10 witness). -/
def fourLenderInput : InputData :=
  mkInput [openAccountAt "Lender A" "100", openAccountAt "Lender B" "500",
    openAccountAt "Lender C" "300", openAccountAt "Lender D" "400"]

/-! ## Lemmas for the amount round-trip (claim C3) -/

lemma toNat_digitChar {d : Nat} (h : d < 10) : (digitChar d).toNat = 48 + d := by
  interval_cases d <;> rfl

lemma isDigit_digitChar {d : Nat} (h : d < 10) : (digitChar d).isDigit = true := by
  interval_cases d <;> rfl

lemma digitsToNat_append (xs : List Char) (c : Char) :
    digitsToNat (xs ++ [c]) = 10 * digitsToNat xs + (c.toNat - 48) := by
  simp [digitsToNat, List.foldl_append, Nat.mul_comm]

lemma digitsToNat_natToDigitsAux :
    ∀ fuel n, n < fuel → digitsToNat (natToDigitsAux fuel n) = n := by
  intro fuel
  induction fuel with
  | zero => intro n h; omega
  | succ f ih =>
    intro n h
    by_cases h10 : n < 10
    · simp [natToDigitsAux, h10, digitsToNat, toNat_digitChar h10]
    · have hn : 0 < n := by omega
      have hdiv : n / 10 < n := Nat.div_lt_self hn (by omega)
      have hf : n / 10 < f := by omega
      simp only [natToDigitsAux, if_neg h10]
      rw [digitsToNat_append, ih _ hf, toNat_digitChar (Nat.mod_lt n (by omega))]
      omega

lemma allDigits_natToDigitsAux :
    ∀ fuel n, n < fuel → allDigits (natToDigitsAux fuel n) = true := by
  intro fuel
  induction fuel with
  | zero => intro n h; omega
  | succ f ih =>
    intro n h
    by_cases h10 : n < 10
    · simp [natToDigitsAux, h10, allDigits, isDigit_digitChar h10]
    · have hn : 0 < n := by omega
      have hdiv : n / 10 < n := Nat.div_lt_self hn (by omega)
      have hf : n / 10 < f := by omega
      simp only [natToDigitsAux, if_neg h10, allDigits, List.all_append, Bool.and_eq_true]
      refine And.intro ?_ ?_
      · exact ih _ hf
      · simp [isDigit_digitChar (Nat.mod_lt n (show 0 < 10 by omega))]

lemma natToDigitsAux_ne_nil :
    ∀ fuel n, n < fuel → natToDigitsAux fuel n ≠ [] := by
  intro fuel n h
  cases fuel with
  | zero => omega
  | succ f =>
    by_cases h10 : n < 10 <;> simp [natToDigitsAux, h10]

lemma digitsToNat_natToDigits (n : Nat) : digitsToNat (natToDigits n) = n :=
  digitsToNat_natToDigitsAux (n + 1) n (Nat.lt_succ_self n)

lemma allDigits_natToDigits (n : Nat) : allDigits (natToDigits n) = true :=
  allDigits_natToDigitsAux (n + 1) n (Nat.lt_succ_self n)

lemma natToDigits_ne_nil (n : Nat) : natToDigits n ≠ [] :=
  natToDigitsAux_ne_nil (n + 1) n (Nat.lt_succ_self n)



lemma replaceAllAux_not_mem (p : Char) (ps : List Char) :
    ∀ fuel s, p ∉ s → replaceAllAux (p :: ps) fuel s = s := by
  intro fuel
  induction fuel with
  | zero => intro s h; cases s <;> rfl
  | succ f ih =>
    intro s h
    cases s with
    | nil => rfl
    | cons c cs =>
      have hpc : ¬(p == c) := by
        simp only [List.mem_cons, not_or] at h
        simp [h.1]
      have hpref : (p :: ps).isPrefixOf (c :: cs) = false := by
        simp [List.isPrefixOf]
        intro hc
        exact absurd hc (by simpa using hpc)
      simp only [replaceAllAux, hpref, Bool.false_eq_true, if_false]
      have : p ∉ cs := by
        simp only [List.mem_cons, not_or] at h
        exact h.2
      rw [ih cs this]

lemma isPrefixOf_append (p t : List Char) : p.isPrefixOf (p ++ t) = true := by
  induction p with
  | nil => simp
  | cons c cs ih => simp [List.isPrefixOf_cons₂, ih]

lemma replaceAll_append_not_mem (p : Char) (ps t : List Char) (h : p ∉ t) :
    replaceAll (p :: ps) ((p :: ps) ++ t) = t := by
  have hs : (p :: ps) ++ t = p :: (ps ++ t) := List.cons_append p ps t
  rw [hs]
  simp only [replaceAll, List.length_cons]
  have hc : (p :: ps).isPrefixOf (p :: (ps ++ t)) = true := by
    have h2 := isPrefixOf_append (p :: ps) t
    rw [hs] at h2
    exact h2
  simp only [replaceAllAux]
  rw [if_pos hc]
  have hdrop : List.drop (p :: ps).length (p :: (ps ++ t)) = t := by
    rw [← hs]
    exact List.drop_left _ _
  rw [hdrop]
  exact replaceAllAux_not_mem p ps _ t h



lemma replaceAllAux_single :
    ∀ fuel s, s.length ≤ fuel →
      replaceAllAux [','] fuel s = s.filter (fun c => !(c == ',')) := by
  intro fuel
  induction fuel with
  | zero =>
    intro s h
    have : s = [] := List.length_eq_zero.mp (Nat.le_zero.mp h)
    subst this
    rfl
  | succ f ih =>
    intro s h
    cases s with
    | nil => rfl
    | cons c cs =>
      simp only [List.length_cons, Nat.succ_le_succ_iff] at h
      by_cases hc : c = ','
      · subst hc
        have hpref : ([','] : List Char).isPrefixOf (',' :: cs) = true := by
          simp [List.isPrefixOf_cons₂]
        simp only [replaceAllAux]
        rw [if_pos hpref]
        simp only [List.length_cons, List.length_nil, List.drop_succ_cons, List.drop_zero]
        rw [ih cs h]
        simp [List.filter_cons]
      · have hpref : ([','] : List Char).isPrefixOf (c :: cs) = false := by
          simp [List.isPrefixOf_cons₂]
          intro hcc
          exact absurd hcc.symm hc
        simp only [replaceAllAux]
        rw [if_neg (by simp [hpref])]
        rw [ih cs h]
        simp [List.filter_cons, hc]

lemma replaceAll_single_eq_filter (s : List Char) :
    replaceAll [','] s = s.filter (fun c => !(c == ',')) :=
  replaceAllAux_single s.length s (Nat.le_refl _)

lemma filter_group3Rev :
    ∀ l : List Char, ',' ∉ l → (group3Rev l).filter (fun c => !(c == ',')) = l := by
  intro l hl
  induction l using group3Rev.induct with
  | case1 a b c d rest ih =>
    simp only [List.mem_cons, not_or] at hl
    obtain ⟨ha, hb, hc2, hd, hrest⟩ := hl
    have ih2 := ih (by
      simp only [List.mem_cons, not_or]
      exact ⟨hd, hrest⟩)
    simp only [group3Rev, List.filter_cons]
    simp [Ne.symm ha, Ne.symm hb, Ne.symm hc2, ih2]
  | case2 l hshape =>
    cases l with
    | nil => rfl
    | cons a t1 =>
      cases t1 with
      | nil =>
        simp only [List.mem_cons, not_or] at hl
        simp [group3Rev, List.filter_cons, Ne.symm hl.1]
      | cons b t2 =>
        cases t2 with
        | nil =>
          simp only [List.mem_cons, not_or] at hl
          simp [group3Rev, List.filter_cons, Ne.symm hl.1, Ne.symm hl.2.1]
        | cons c t3 =>
          cases t3 with
          | nil =>
            simp only [List.mem_cons, not_or] at hl
            simp [group3Rev, List.filter_cons, Ne.symm hl.1, Ne.symm hl.2.1, Ne.symm hl.2.2.1]
          | cons d t4 => exact absurd rfl (hshape a b c d t4)

lemma mem_group3Rev :
    ∀ l : List Char, ∀ c, c ∈ group3Rev l → c ∈ l ∨ c = ',' := by
  intro l
  induction l using group3Rev.induct with
  | case1 a b c d rest ih =>
    intro x hx
    simp only [group3Rev, List.mem_cons] at hx
    rcases hx with h | h | h | h | h
    · exact Or.inl (by simp [h])
    · exact Or.inl (by simp [h])
    · exact Or.inl (by simp [h])
    · exact Or.inr h
    · rcases ih x h with h2 | h2
      · exact Or.inl (by simp only [List.mem_cons] at h2 ⊢; tauto)
      · exact Or.inr h2
  | case2 l hshape =>
    intro x hx
    cases l with
    | nil => exact absurd hx (by simp [group3Rev])
    | cons a t1 =>
      cases t1 with
      | nil => exact Or.inl (by simpa [group3Rev] using hx)
      | cons b t2 =>
        cases t2 with
        | nil => exact Or.inl (by simpa [group3Rev] using hx)
        | cons c t3 =>
          cases t3 with
          | nil => exact Or.inl (by simpa [group3Rev] using hx)
          | cons d t4 => exact absurd rfl (hshape a b c d t4)

lemma mem_commafy (l : List Char) (c : Char) (h : c ∈ commafy l) : c ∈ l ∨ c = ',' := by
  simp only [commafy, List.mem_reverse] at h
  rcases mem_group3Rev l.reverse c h with h2 | h2
  · exact Or.inl (List.mem_reverse.mp h2)
  · exact Or.inr h2

lemma filter_commafy (l : List Char) (hl : ',' ∉ l) :
    (commafy l).filter (fun c => !(c == ',')) = l := by
  simp only [commafy]
  rw [List.filter_reverse]
  rw [filter_group3Rev l.reverse (by simpa using hl)]
  exact List.reverse_reverse l



lemma not_isWS_of_isDigit {c : Char} (h : c.isDigit = true) : isWS c = false := by
  cases hw : isWS c
  · rfl
  · exfalso
    simp only [isWS, Bool.or_eq_true, decide_eq_true_eq] at hw
    rcases hw with ((((h1 | h1) | h1) | h1) | h1) | h1 <;> (subst h1; simp [Char.isDigit] at h)

lemma dropWhile_eq_self_of_all (l : List Char) (h : ∀ c ∈ l, isWS c = false) :
    l.dropWhile isWS = l := by
  cases l with
  | nil => rfl
  | cons c cs =>
    rw [List.dropWhile_cons]
    simp [h c (by simp)]

lemma pyStrip_of_digits (l : List Char) (h : allDigits l = true) : pyStrip l = l := by
  have hall : ∀ c ∈ l, isWS c = false := by
    intro c hc
    exact not_isWS_of_isDigit (by
      simp only [allDigits, List.all_eq_true] at h
      exact h c hc)
  simp only [pyStrip]
  rw [dropWhile_eq_self_of_all l hall]
  rw [dropWhile_eq_self_of_all l.reverse (by
    intro c hc
    exact hall c (List.mem_reverse.mp hc))]
  exact List.reverse_reverse l

lemma pyFloatInt_of_digits (l : List Char) (hne : l ≠ []) (h : allDigits l = true) :
    pyFloatInt l = some (floatRound (digitsToNat l)) := by
  simp [pyFloatInt, hne, h]

lemma floatRound_small {n : Nat} (h : n ≤ 9007199254740992) : floatRound n = n := by
  simp [floatRound, h]

lemma filter_eq_self_of_not_comma (l : List Char) (h : ',' ∉ l) :
    l.filter (fun c => !(c == ',')) = l := by
  induction l with
  | nil => rfl
  | cons c cs ih =>
    simp only [List.mem_cons, not_or] at h
    rw [List.filter_cons]
    simp [Ne.symm h.1, ih h.2]

/-- The full round-trip for small n. -/
lemma safeIntChars_r (n : Nat) (h : n ≤ 9007199254740992) :
    safeIntChars (r n).toList = n := by
  have hfr : floatRound n = n := floatRound_small h
  have hdd := allDigits_natToDigits n
  have hddne := natToDigits_ne_nil n
  have hnotin : ∀ c : Char, c.isDigit = false → c ≠ ',' → c ∉ commafy (natToDigits n) := by
    intro c hcd hcc hmem
    rcases mem_commafy _ _ hmem with h2 | h2
    · simp only [allDigits, List.all_eq_true] at hdd
      rw [hdd c h2] at hcd
      exact absurd hcd (by simp)
    · exact hcc h2
  have hlist : (r n).toList = rsChars ++ commafy (natToDigits n) := by
    simp [r, hfr]
  rw [hlist]
  simp only [safeIntChars]
  -- step 1: the mangled rupee pattern occurs nowhere
  have h1 : replaceAll rupeeMangled (rsChars ++ commafy (natToDigits n)) =
      rsChars ++ commafy (natToDigits n) := by
    have : Char.ofNat 0x201A ∉ rsChars ++ commafy (natToDigits n) := by
      intro hmem
      rcases List.mem_append.mp hmem with h2 | h2
      · exact absurd h2 (by decide)
      · exact hnotin _ (by decide) (by decide) h2
    exact replaceAllAux_not_mem _ _ _ _ this
  rw [h1]
  -- step 2: the Rs. marker is consumed, the tail is comma-and-digit only
  have h2 : replaceAll rsChars (rsChars ++ commafy (natToDigits n)) =
      commafy (natToDigits n) := by
    have : 'R' ∉ commafy (natToDigits n) := hnotin _ (by decide) (by decide)
    exact replaceAll_append_not_mem _ _ _ this
  rw [h2]
  -- step 3: commas are stripped
  rw [replaceAll_single_eq_filter]
  rw [filter_commafy _ (by
    intro hmem
    simp only [allDigits, List.all_eq_true] at hdd
    have := hdd _ hmem
    exact absurd this (by decide))]
  -- step 4: no whitespace to strip, then parse
  rw [pyStrip_of_digits _ hdd]
  rw [pyFloatInt_of_digits _ hddne hdd]
  rw [digitsToNat_natToDigits, hfr]


/-! ## Claim C3: amount parsing round-trip -/

/-- C3 counterexample: the claim `parseAmount(formatCurrency(n)) == n` for
ALL nonnegative integers fails at `n = 2^53 + 1 = 9007199254740993`: the
`int(float(.))` conversions inside `safe_int` and `r` round to the nearest
double, so the round-trip returns `9007199254740992`. -/
theorem claim_C3_counterexample :
    safe_int (some (r 9007199254740993)) = 9007199254740992 ∧
      (9007199254740992 : Nat) ≠ 9007199254740993 := by
  constructor
  · decide
  · decide

/-- C3 (amended): for every nonnegative integer `n ≤ 2^53` (the range on
which a double represents `n` exactly), parsing the formatted currency
string back returns `n`: `safe_int (r n) = n`. -/
theorem claim_C3 (n : Nat) (h : n ≤ 9007199254740992) : safe_int (some (r n)) = n := by
  simp only [safe_int]
  exact safeIntChars_r n h

/-- C3 witness: the amended round-trip at the concrete input 1234567. -/
theorem claim_C3_witness : safe_int (some (r 1234567)) = 1234567 :=
  claim_C3 1234567 (by decide)


/-! ## Lemmas about the analysis loop -/

lemma analyze_ok {data : InputData} {ref : PDate} {res : MetricsResult}
    (h : analyze_report data ref = Except.ok res) : res = analyzeCore data ref := by
  by_cases hab : (extractAccounts data).any accountAborts
  · simp [analyze_report, hab] at h
  · simp [analyze_report, hab] at h
    exact h.symm

lemma foldl_preserve {α β : Type} (P : α → Prop) (f : α → β → α)
    (hf : ∀ s x, P s → P (f s x)) : ∀ (l : List β) (s : α), P s → P (l.foldl f s) := by
  intro l
  induction l with
  | nil => intro s h; exact h
  | cons x xs ih => intro s h; exact ih (f s x) (hf s x h)

lemma processAccount_portfolio (refOrd : Int) (st : LoopState) (acc : RetailAccount) :
    (processAccount refOrd st acc).portfolio = bump (rawType acc) 1 st.portfolio := by
  simp [processAccount]

lemma foldl_portfolio (refOrd : Int) :
    ∀ (accs : List RetailAccount) (st : LoopState),
      (accs.foldl (processAccount refOrd) st).portfolio =
        accs.foldl (fun p a => bump (rawType a) 1 p) st.portfolio := by
  intro accs
  induction accs with
  | nil => intro st; rfl
  | cons a as ih =>
    intro st
    simp only [List.foldl_cons]
    rw [ih, processAccount_portfolio]



lemma processAccount_writeoff (refOrd : Int) (st : LoopState) (acc : RetailAccount) :
    (processAccount refOrd st acc).write_off_accounts =
      if hasLSS acc then insertIfAbsent (idOf acc) st.write_off_accounts
      else st.write_off_accounts := by
  simp [processAccount]

lemma foldl_writeoff (refOrd : Int) :
    ∀ (accs : List RetailAccount) (st : LoopState),
      (accs.foldl (processAccount refOrd) st).write_off_accounts =
        accs.foldl
          (fun w a => if hasLSS a then insertIfAbsent (idOf a) w else w)
          st.write_off_accounts := by
  intro accs
  induction accs with
  | nil => intro st; rfl
  | cons a as ih =>
    intro st
    simp only [List.foldl_cons]
    rw [ih, processAccount_writeoff]

lemma processAccount_exposure (refOrd : Int) (st : LoopState) (acc : RetailAccount) :
    (processAccount refOrd st acc).lender_exposure =
      if isOpenAcc acc then bump (lenderOf acc) (safe_int acc.sanctionAmount) st.lender_exposure
      else st.lender_exposure := by
  simp [processAccount]

lemma foldl_exposure (refOrd : Int) :
    ∀ (accs : List RetailAccount) (st : LoopState),
      (accs.foldl (processAccount refOrd) st).lender_exposure =
        accs.foldl
          (fun l a =>
            if isOpenAcc a then bump (lenderOf a) (safe_int a.sanctionAmount) l else l)
          st.lender_exposure := by
  intro accs
  induction accs with
  | nil => intro st; rfl
  | cons a as ih =>
    intro st
    simp only [List.foldl_cons]
    rw [ih, processAccount_exposure]

lemma processAccount_util (refOrd : Int) (st : LoopState) (acc : RetailAccount) :
    (processAccount refOrd st acc).util_ratios =
      if isCCtype acc ∧ 0 < safe_int acc.highCredit then
        st.util_ratios ++ [(safe_int acc.balance, safe_int acc.highCredit)]
      else st.util_ratios := by
  simp [processAccount]

lemma foldl_util (refOrd : Int) :
    ∀ (accs : List RetailAccount) (st : LoopState),
      (accs.foldl (processAccount refOrd) st).util_ratios =
        accs.foldl
          (fun u a =>
            if isCCtype a ∧ 0 < safe_int a.highCredit then
              u ++ [(safe_int a.balance, safe_int a.highCredit)]
            else u)
          st.util_ratios := by
  intro accs
  induction accs with
  | nil => intro st; rfl
  | cons a as ih =>
    intro st
    simp only [List.foldl_cons]
    rw [ih, processAccount_util]

lemma processAccount_dpd (refOrd : Int) (st : LoopState) (acc : RetailAccount) :
    ((processAccount refOrd st acc).missed_count,
     (processAccount refOrd st acc).dpd30_6m,
     (processAccount refOrd st acc).dpd30_12m,
     (processAccount refOrd st acc).max_dpd_12m) =
      acc.history48Months.foldl (histCore refOrd)
        (st.missed_count, st.dpd30_6m, st.dpd30_12m, st.max_dpd_12m) := by
  simp [processAccount]

lemma foldl_dpd (refOrd : Int) :
    ∀ (accs : List RetailAccount) (st : LoopState),
      ((accs.foldl (processAccount refOrd) st).missed_count,
       (accs.foldl (processAccount refOrd) st).dpd30_6m,
       (accs.foldl (processAccount refOrd) st).dpd30_12m,
       (accs.foldl (processAccount refOrd) st).max_dpd_12m) =
        accs.foldl (fun p a => a.history48Months.foldl (histCore refOrd) p)
          (st.missed_count, st.dpd30_6m, st.dpd30_12m, st.max_dpd_12m) := by
  intro accs
  induction accs with
  | nil => intro st; rfl
  | cons a as ih =>
    intro st
    simp only [List.foldl_cons]
    rw [ih, processAccount_dpd]



lemma histCore_mono (refOrd : Int) (p : Nat × Nat × Nat × Nat) (h : HistEntry)
    (hp : p.2.1 ≤ p.2.2.1) :
    (histCore refOrd p h).2.1 ≤ (histCore refOrd p h).2.2.1 := by
  obtain ⟨missed, d6, d12, maxd⟩ := p
  simp only [histCore]
  cases periodDate h with
  | none => exact hp
  | some d =>
    simp only at hp ⊢
    by_cases h365 : refOrd - 365 ≤ toOrd d
    · by_cases h30 : 30 ≤ safe_int h.paymentStatus
      · simp only [if_pos h365, if_pos h30]
        by_cases h180 : refOrd - 180 ≤ toOrd d <;> simp [h180] <;> omega
      · simp only [if_pos h365, if_neg h30]
        exact hp
    · simp only [if_neg h365]
      exact hp

lemma insertIfAbsent_toFinset (x : String) (w : List String) :
    (insertIfAbsent x w).toFinset = insert x w.toFinset := by
  simp only [insertIfAbsent]
  split
  · rename_i hmem
    exact (Finset.insert_eq_self.mpr (List.mem_toFinset.mpr hmem)).symm
  · exact List.toFinset_cons

lemma insertIfAbsent_nodup (x : String) (w : List String) (h : w.Nodup) :
    (insertIfAbsent x w).Nodup := by
  simp only [insertIfAbsent]
  split
  · exact h
  · rename_i hmem
    exact List.nodup_cons.mpr ⟨hmem, h⟩

lemma foldl_wo_spec (accs : List RetailAccount) :
    ∀ w : List String, w.Nodup →
      (accs.foldl (fun w a => if hasLSS a then insertIfAbsent (idOf a) w else w) w).Nodup ∧
      (accs.foldl (fun w a => if hasLSS a then insertIfAbsent (idOf a) w else w) w).toFinset =
        w.toFinset ∪ ((accs.filter hasLSS).map idOf).toFinset := by
  induction accs with
  | nil =>
    intro w hw
    exact ⟨hw, by simp⟩
  | cons a as ih =>
    intro w hw
    simp only [List.foldl_cons, List.filter_cons]
    by_cases hL : hasLSS a
    · rw [if_pos hL]
      have h2 := ih (insertIfAbsent (idOf a) w) (insertIfAbsent_nodup _ _ hw)
      refine ⟨h2.1, ?_⟩
      rw [h2.2, insertIfAbsent_toFinset]
      rw [if_pos hL]
      ext x
      simp

    · rw [if_neg hL]
      have h2 := ih w hw
      refine ⟨h2.1, ?_⟩
      rw [h2.2]
      simp [hL]



lemma lookupN_bump (x k : String) (v : Nat) :
    ∀ l : List (String × Nat),
      lookupN x (bump k v l) = lookupN x l + (if k = x then v else 0) := by
  intro l
  induction l with
  | nil =>
    simp only [bump, lookupN]
    by_cases hkx : k = x <;> simp [hkx]
  | cons p rest ih =>
    obtain ⟨k', v'⟩ := p
    by_cases hk : k' = k
    · subst hk
      simp only [bump, if_pos rfl, lookupN]
      by_cases hx : k' = x
      · subst hx
        simp
      · simp [hx]
    · simp only [bump, if_neg hk, lookupN]
      by_cases hx : k' = x
      · have hkx : ¬ k = x := fun hh => hk (hx.trans hh.symm)
        simp [hx, hkx]
      · simp [hx, ih]

lemma foldl_bump_count (x : String) :
    ∀ (accs : List RetailAccount) (p : List (String × Nat)),
      lookupN x (accs.foldl (fun p a => bump (rawType a) 1 p) p) =
        lookupN x p + ((accs.filter (fun a => rawType a = x)).length) := by
  intro accs
  induction accs with
  | nil => intro p; simp
  | cons a as ih =>
    intro p
    simp only [List.foldl_cons, List.filter_cons]
    rw [ih]
    rw [lookupN_bump]
    by_cases hx : rawType a = x
    · simp [hx]
      omega
    · simp [hx]



lemma foldl_util_of_none (accs : List RetailAccount)
    (h : ∀ a ∈ accs, ¬(isCCtype a = true ∧ 0 < safe_int a.highCredit)) :
    ∀ u : List (Nat × Nat),
      accs.foldl
        (fun u a =>
          if isCCtype a ∧ 0 < safe_int a.highCredit then
            u ++ [(safe_int a.balance, safe_int a.highCredit)]
          else u) u = u := by
  induction accs with
  | nil => intro u; rfl
  | cons a as ih =>
    intro u
    simp only [List.foldl_cons]
    rw [if_neg (by
      intro hcc
      exact h a (by simp) ⟨hcc.1, hcc.2⟩)]
    exact ih (fun a ha => h a (by simp [ha])) u

lemma keys_bump (k : String) (v : Nat) :
    ∀ l : List (String × Nat), ∀ kv ∈ bump k v l, kv.1 = k ∨ kv.1 ∈ l.map Prod.fst := by
  intro l
  induction l with
  | nil =>
    intro kv hkv
    simp only [bump, List.mem_singleton] at hkv
    subst hkv
    exact Or.inl rfl
  | cons p rest ih =>
    obtain ⟨k', v'⟩ := p
    intro kv hkv
    by_cases hk : k' = k
    · subst hk
      simp only [bump, if_pos, List.mem_cons] at hkv
      rcases hkv with hkv | hkv
      · subst hkv; exact Or.inl rfl
      · refine Or.inr ?_
        simp only [List.map_cons, List.mem_cons]
        exact Or.inr (List.mem_map.mpr ⟨kv, hkv, rfl⟩)
    · simp only [bump, if_neg hk, List.mem_cons] at hkv
      rcases hkv with hkv | hkv
      · subst hkv
        simp only [List.map_cons, List.mem_cons]
        tauto
      · rcases ih kv hkv with h2 | h2
        · exact Or.inl h2
        · refine Or.inr ?_
          simp only [List.map_cons, List.mem_cons]
          exact Or.inr h2

lemma keys_bump_nodup (k : String) (v : Nat) :
    ∀ l : List (String × Nat), (l.map Prod.fst).Nodup → ((bump k v l).map Prod.fst).Nodup := by
  intro l
  induction l with
  | nil => intro h; simp [bump]
  | cons p rest ih =>
    obtain ⟨k', v'⟩ := p
    intro h
    simp only [List.map_cons, List.nodup_cons] at h
    by_cases hk : k' = k
    · subst hk
      simp only [bump, if_pos, List.map_cons, List.nodup_cons]
      exact h
    · simp only [bump, if_neg hk, List.map_cons, List.nodup_cons]
      refine And.intro ?_ (ih h.2)
      intro hmem
      simp only [List.mem_map] at hmem
      obtain ⟨kv, hkv, hfst⟩ := hmem
      rcases keys_bump k v rest kv hkv with h2 | h2
      · exact hk (hfst.symm.trans h2)
      · exact h.1 (List.mem_map.mpr (by
          simp only [List.mem_map] at h2
          obtain ⟨kv2, hkv2, hfst2⟩ := h2
          exact ⟨kv2, hkv2, hfst2.trans hfst⟩))

lemma mem_of_nodup_keys :
    ∀ l : List (String × Nat), (l.map Prod.fst).Nodup → ∀ kv ∈ l, kv.2 = lookupN kv.1 l := by
  intro l
  induction l with
  | nil => intro _ kv hkv; exact absurd hkv (by simp)
  | cons p rest ih =>
    obtain ⟨k', v'⟩ := p
    intro h kv hkv
    simp only [List.map_cons, List.nodup_cons] at h
    rcases List.mem_cons.mp hkv with hkv2 | hkv2
    · subst hkv2
      simp [lookupN]
    · have hne : ¬ k' = kv.1 := by
        intro hh
        exact h.1 (by
          simp only [List.mem_map]
          exact ⟨kv, hkv2, hh.symm⟩)
      simp only [lookupN, if_neg hne]
      exact ih h.2 kv hkv2



lemma exposure_fold_nodup (accs : List RetailAccount) (l : List (String × Nat))
    (h : (l.map Prod.fst).Nodup) :
    ((accs.foldl
        (fun l a =>
          if isOpenAcc a then bump (lenderOf a) (safe_int a.sanctionAmount) l else l)
        l).map Prod.fst).Nodup := by
  refine foldl_preserve (fun l2 : List (String × Nat) => (l2.map Prod.fst).Nodup) _ ?_ accs l h
  intro s a hs
  by_cases hop : isOpenAcc a
  · simpa [hop] using keys_bump_nodup (lenderOf a) (safe_int a.sanctionAmount) s hs
  · simpa [hop] using hs

lemma exposure_fold_origin :
    ∀ (accs : List RetailAccount) (l : List (String × Nat)) (kv : String × Nat),
      kv ∈ accs.foldl
        (fun l a =>
          if isOpenAcc a then bump (lenderOf a) (safe_int a.sanctionAmount) l else l) l →
      kv.1 ∈ l.map Prod.fst ∨ ∃ a ∈ accs, isOpenAcc a = true ∧ lenderOf a = kv.1 := by
  intro accs
  induction accs with
  | nil =>
    intro l kv h
    exact Or.inl (List.mem_map.mpr ⟨kv, h, rfl⟩)
  | cons a as ih =>
    intro l kv h
    simp only [List.foldl_cons] at h
    by_cases hop : isOpenAcc a
    · rw [if_pos hop] at h
      rcases ih _ kv h with h2 | h2
      · simp only [List.mem_map] at h2
        obtain ⟨kv2, hkv2, hfst⟩ := h2
        rcases keys_bump _ _ l kv2 hkv2 with h3 | h3
        · exact Or.inr ⟨a, by simp, hop, (hfst.symm.trans h3).symm⟩
        · exact Or.inl (hfst ▸ h3)
      · obtain ⟨a2, ha2, h3⟩ := h2
        exact Or.inr ⟨a2, by simp [ha2], h3⟩
    · rw [if_neg hop] at h
      rcases ih _ kv h with h2 | h2
      · exact Or.inl h2
      · obtain ⟨a2, ha2, h3⟩ := h2
        exact Or.inr ⟨a2, by simp [ha2], h3⟩

lemma exposure_fold_lookup (x : String) :
    ∀ (accs : List RetailAccount) (l : List (String × Nat)),
      lookupN x (accs.foldl
        (fun l a =>
          if isOpenAcc a then bump (lenderOf a) (safe_int a.sanctionAmount) l else l) l) =
        lookupN x l +
          ((accs.filter (fun a => isOpenAcc a && lenderOf a == x)).map
            (fun a => safe_int a.sanctionAmount)).sum := by
  intro accs
  induction accs with
  | nil => intro l; simp
  | cons a as ih =>
    intro l
    simp only [List.foldl_cons, List.filter_cons]
    by_cases hop : isOpenAcc a
    · rw [if_pos hop, ih, lookupN_bump]
      by_cases hx : lenderOf a = x
      · simp [hop, hx]
        omega
      · simp [hop, hx]
    · rw [if_neg hop, ih]
      simp [hop]



lemma extractAccounts_of_no_cir (data : InputData) (h : getCirList data = []) :
    extractAccounts data = [] := by
  simp [extractAccounts, getCirData, h]

lemma utilization_na_of_no_card (data : InputData) (ref : PDate) (res : MetricsResult)
    (h : analyze_report data ref = Except.ok res)
    (hcc : ∀ a ∈ extractAccounts data, ¬(isCCtype a = true ∧ 0 < safe_int a.highCredit)) :
    res.utilization = "N/A" := by
  have hres := analyze_ok h
  subst hres
  simp only [analyzeCore]
  rw [foldl_util]
  rw [foldl_util_of_none _ hcc]
  simp [initState, utilString]

/-! ## The claims -/

/-- C1 counterexample: on an input whose `CIRReportDataLst` path is missing
entirely, `analyze_report` does NOT surface an error: it returns a normal
results record whose fields are empty defaults.  The claimed distinct
"unrecognized report" failure does not exist in the code (the extraction is
wrapped in `try/except: pass` and an empty `cir_list` is silently skipped). -/
theorem claim_C1_counterexample :
    analyze_report noReportInput refDate = Except.ok (analyzeCore noReportInput refDate) ∧
      (analyzeCore noReportInput refDate).active_loans = 0 ∧
      (analyzeCore noReportInput refDate).portfolio = [] ∧
      (analyzeCore noReportInput refDate).utilization = "N/A" :=
  ⟨rfl, by decide, by decide, by decide⟩

/-- C1 (amended): whenever the top-level report container cannot be located
(the `CIRReportDataLst` list resolves to empty), `analyze_report` silently
succeeds and returns a `MetricsResult` whose account-derived fields are all
zero / empty / "N/A"; no error is surfaced to the caller. -/
theorem claim_C1 (data : InputData) (ref : PDate) (h : getCirList data = []) :
    analyze_report data ref = Except.ok (analyzeCore data ref) ∧
      (analyzeCore data ref).active_loans = 0 ∧
      (analyzeCore data ref).active_sanction_total = 0 ∧
      (analyzeCore data ref).total_emi = 0 ∧
      (analyzeCore data ref).missed_payments = 0 ∧
      (analyzeCore data ref).dpd30_6m = 0 ∧
      (analyzeCore data ref).dpd30_12m = 0 ∧
      (analyzeCore data ref).max_dpd_12m = 0 ∧
      (analyzeCore data ref).writeoff_count = 0 ∧
      (analyzeCore data ref).portfolio = [] ∧
      (analyzeCore data ref).utilization = "N/A" ∧
      (analyzeCore data ref).top_lenders = [] ∧
      (analyzeCore data ref).loans_availed_last_3m = 0 ∧
      (analyzeCore data ref).pl_bl_availed_last_6m = 0 := by
  have hacc := extractAccounts_of_no_cir data h
  constructor
  · simp [analyze_report, hacc]
  · simp [analyzeCore, hacc, initState, utilString, mostCommon3, List.insertionSort]

/-- C1 witness: the amended claim applied to the concrete malformed input. -/
theorem claim_C1_witness :
    analyze_report noReportInput refDate = Except.ok (analyzeCore noReportInput refDate) :=
  (claim_C1 noReportInput refDate rfl).1

/-- C2: the spec demands that an unparseable field never aborts the
analysis, and the repository's own `to_date` helper indeed accepts the
day-month-year form; but the bare `datetime.strptime(date_opened_str,
'%Y-%m-%d')` in the account loop is outside every `try/except`, so an
account whose `DateOpened` is "14-06-2024" makes `analyze_report` raise and
produce no result — the code contradicts the spec (a code bug). -/
theorem claim_C2 :
    to_date "14-06-2024" = some ⟨2024, 6, 14⟩ ∧
      analyze_report badDateInput refDate = Except.error () := by
  constructor
  · decide
  · rfl

/-- C4: for every report and reference date on which the analysis returns a
result, the 6-month DPD≥30 counter never exceeds the 12-month DPD≥30
counter, because the 6-month increment happens only inside the 12-month
increment branch. -/
theorem claim_C4 (data : InputData) (ref : PDate) (res : MetricsResult)
    (h : analyze_report data ref = Except.ok res) : res.dpd30_6m ≤ res.dpd30_12m := by
  have hres := analyze_ok h
  subst hres
  simp only [analyzeCore]
  have hfold := foldl_dpd (toOrd ref) (extractAccounts data) initState
  have h6 : (List.foldl (processAccount (toOrd ref)) initState (extractAccounts data)).dpd30_6m =
      (List.foldl (fun p a => a.history48Months.foldl (histCore (toOrd ref)) p)
        (initState.missed_count, initState.dpd30_6m, initState.dpd30_12m, initState.max_dpd_12m)
        (extractAccounts data)).2.1 := by
    rw [← hfold]
  have h12 : (List.foldl (processAccount (toOrd ref)) initState (extractAccounts data)).dpd30_12m =
      (List.foldl (fun p a => a.history48Months.foldl (histCore (toOrd ref)) p)
        (initState.missed_count, initState.dpd30_6m, initState.dpd30_12m, initState.max_dpd_12m)
        (extractAccounts data)).2.2.1 := by
    rw [← hfold]
  rw [h6, h12]
  refine foldl_preserve (fun (p : Nat × Nat × Nat × Nat) => p.2.1 ≤ p.2.2.1) _ ?_ _ _ ?_
  · intro s a hs
    exact foldl_preserve (fun (p : Nat × Nat × Nat × Nat) => p.2.1 ≤ p.2.2.1) _
      (fun s2 x2 hs2 => histCore_mono (toOrd ref) s2 x2 hs2) _ _ hs
  · simp [initState]



/-- C4 witness: window monotonicity at the Scenario C input. -/
theorem claim_C4_witness :
    (analyzeCore scenarioCInput refDate).dpd30_6m ≤
      (analyzeCore scenarioCInput refDate).dpd30_12m :=
  claim_C4 scenarioCInput refDate (analyzeCore scenarioCInput refDate) rfl

/-- C5: write-off counting is deduplicated per account identifier: the
reported `writeoff_count` equals the number of DISTINCT `str(AccountNumber)`
keys among accounts having at least one `LSS`-flagged history entry — so an
account with two `LSS` months contributes exactly 1. -/
theorem claim_C5 (data : InputData) (ref : PDate) (res : MetricsResult)
    (h : analyze_report data ref = Except.ok res) :
    res.writeoff_count = (((extractAccounts data).filter hasLSS).map idOf).toFinset.card := by
  have hres := analyze_ok h
  subst hres
  simp only [analyzeCore]
  rw [foldl_writeoff]
  have hspec := foldl_wo_spec (extractAccounts data) initState.write_off_accounts (by
    simp [initState])
  have hcard := List.toFinset_card_of_nodup hspec.1
  rw [← hcard, hspec.2]
  simp [initState]



/-- C5 witness: one account with two `LSS`-flagged months contributes
exactly 1 to `writeoff_count`. -/
theorem claim_C5_witness :
    (analyzeCore doubleLssInput refDate).writeoff_count = 1 :=
  (claim_C5 doubleLssInput refDate (analyzeCore doubleLssInput refDate) rfl).trans (by decide)

/-- C6 counterexample: the portfolio mapping is keyed by the RAW account-type
label, not by its canonical category: a report with one "Personal Loan"
account yields the key "Personal Loan", while the canonical category of that
label is "PL".  The abbreviation table is applied only by the presentation
layer (charts), never to the `portfolio` dict in the results record. -/
theorem claim_C6_counterexample :
    analyze_report personalLoanInput refDate =
        Except.ok (analyzeCore personalLoanInput refDate) ∧
      (analyzeCore personalLoanInput refDate).portfolio = [("Personal Loan", 1)] ∧
      abbreviate_account_type "Personal Loan" = "PL" ∧
      ("Personal Loan" : String) ≠ "PL" :=
  ⟨rfl, by decide, by decide, by decide⟩

/-- C6 (amended): the portfolio distribution is keyed by the raw account-type
label (`AccountType`, falling back to `Type`, then "Other"): for every key,
its count in the results record equals the number of accounts carrying
exactly that raw label. -/
theorem claim_C6 (data : InputData) (ref : PDate) (res : MetricsResult)
    (h : analyze_report data ref = Except.ok res) (k : String) :
    lookupN k res.portfolio =
      ((extractAccounts data).filter (fun a => rawType a = k)).length := by
  have hres := analyze_ok h
  subst hres
  simp only [analyzeCore]
  rw [foldl_portfolio]
  rw [foldl_bump_count]
  simp [initState, lookupN]



/-- C6 witness: the amended claim at the one-personal-loan input. -/
theorem claim_C6_witness :
    lookupN "Personal Loan" (analyzeCore personalLoanInput refDate).portfolio = 1 :=
  (claim_C6 personalLoanInput refDate (analyzeCore personalLoanInput refDate) rfl
    "Personal Loan").trans (by decide)

/-- C7: credit-card utilization includes closed cards and is the mean ratio
as a percentage: the Scenario B report (one CLOSED credit card, limit 50000,
balance 25000) yields `utilization = "50.0%"` with `active_loans = 0`; and
every report without a credit-card account holding a positive limit yields
`utilization = "N/A"`. -/
theorem claim_C7 :
    (analyze_report scenarioBInput refDate =
        Except.ok (analyzeCore scenarioBInput refDate) ∧
      (analyzeCore scenarioBInput refDate).utilization = "50.0%" ∧
      (analyzeCore scenarioBInput refDate).active_loans = 0) ∧
    (∀ (data : InputData) (ref : PDate) (res : MetricsResult),
      analyze_report data ref = Except.ok res →
      (∀ a ∈ extractAccounts data, ¬(isCCtype a = true ∧ 0 < safe_int a.highCredit)) →
      res.utilization = "N/A") :=
  ⟨⟨rfl, by decide, by decide⟩,
   fun data ref res h hcc => utilization_na_of_no_card data ref res h hcc⟩

/-- C7 witness: the "N/A" branch at a report with no credit card. -/
theorem claim_C7_witness :
    (analyzeCore noCardInput refDate).utilization = "N/A" :=
  claim_C7.2 noCardInput refDate (analyzeCore noCardInput refDate) rfl (by decide)

/-- C8: a report with one account whose single history entry carries DPD 45
and a period date exactly 200 days before the reference date produces
`dpd30_12m = 1`, `dpd30_6m = 0`, `max_dpd_12m = 45` (inside the 365-day
window, outside the 180-day window). -/
theorem claim_C8 (data : InputData) (ref : PDate) (res : MetricsResult)
    (acc : RetailAccount) (hEntry : HistEntry) (dt : PDate)
    (h : analyze_report data ref = Except.ok res)
    (haccs : extractAccounts data = [acc])
    (hhist : acc.history48Months = [hEntry])
    (hdpd : safe_int hEntry.paymentStatus = 45)
    (hdate : periodDate hEntry = some dt)
    (hord : toOrd dt = toOrd ref - 200) :
    res.dpd30_12m = 1 ∧ res.dpd30_6m = 0 ∧ res.max_dpd_12m = 45 := by
  have hres := analyze_ok h
  subst hres
  simp only [analyzeCore]
  have hfold := foldl_dpd (toOrd ref) (extractAccounts data) initState
  rw [haccs] at hfold
  simp only [List.foldl_cons, List.foldl_nil, hhist] at hfold
  rw [haccs]
  have hcore : histCore (toOrd ref)
      (initState.missed_count, initState.dpd30_6m, initState.dpd30_12m, initState.max_dpd_12m)
      hEntry = (1, 0, 1, 45) := by
    simp only [histCore, hdate, hdpd, initState]
    rw [hord]
    have h365 : toOrd ref - 365 ≤ toOrd ref - 200 := by omega
    have h180 : ¬(toOrd ref - 180 ≤ toOrd ref - 200) := by omega
    simp [h365, h180]
  rw [hcore] at hfold
  simp only [List.foldl_cons, List.foldl_nil, hhist]
  refine ⟨?_, ?_, ?_⟩
  · have := congrArg (fun p => p.2.2.1) hfold
    simpa [hcore] using this
  · have := congrArg (fun p => p.2.1) hfold
    simpa [hcore] using this
  · have := congrArg (fun p => p.2.2.2) hfold
    simpa [hcore] using this



/-- C8 witness: Scenario C at the concrete date 2024-06-14 against the
reference 2024-12-31 (a 200-day gap). -/
theorem claim_C8_witness :
    (analyzeCore scenarioCInput refDate).dpd30_12m = 1 ∧
      (analyzeCore scenarioCInput refDate).dpd30_6m = 0 ∧
      (analyzeCore scenarioCInput refDate).max_dpd_12m = 45 :=
  claim_C8 scenarioCInput refDate (analyzeCore scenarioCInput refDate) dpd45Account dpd45Entry
    ⟨2024, 6, 14⟩ rfl rfl rfl (by decide) (by decide) (by decide)

/-- C9: the write-off set is keyed by `str(AccountNumber)`, so two distinct
accounts that both lack an `AccountNumber` collapse to the single key
"None": the report with two such `LSS`-flagged accounts has
`writeoff_count = 1`, not 2. -/
theorem claim_C9 :
    analyze_report collidingLssInput refDate =
        Except.ok (analyzeCore collidingLssInput refDate) ∧
      (analyzeCore collidingLssInput refDate).writeoff_count = 1 :=
  ⟨rfl, by decide⟩

/-- C10: `top_lenders` has at most 3 entries; every entry names a lender
with at least one open account, carries that lender's total sanctioned
exposure over open accounts, and the list is sorted by descending
exposure. -/
theorem claim_C10 (data : InputData) (ref : PDate) (res : MetricsResult)
    (h : analyze_report data ref = Except.ok res) :
    res.top_lenders.length ≤ 3 ∧
      (∀ p ∈ res.top_lenders,
        (∃ a ∈ extractAccounts data, isOpenAcc a = true ∧ lenderOf a = p.1) ∧
          p.2 = lenderExposureSum data p.1) ∧
      List.Sorted expGE res.top_lenders := by
  have hres := analyze_ok h
  subst hres
  simp only [analyzeCore, mostCommon3]
  rw [foldl_exposure]
  set expL := (extractAccounts data).foldl
    (fun l a => if isOpenAcc a then bump (lenderOf a) (safe_int a.sanctionAmount) l else l)
    initState.lender_exposure with hexpL
  refine ⟨?_, ?_, ?_⟩
  · rw [List.length_take]
    exact Nat.min_le_left 3 _
  · intro p hp
    have hp2 : p ∈ List.insertionSort expGE expL := List.mem_of_mem_take hp
    have hp3 : p ∈ expL := (List.perm_insertionSort expGE expL).mem_iff.mp hp2
    constructor
    · have := exposure_fold_origin (extractAccounts data) initState.lender_exposure p hp3
      rcases this with h2 | h2
      · exact absurd h2 (by simp [initState])
      · exact h2
    · have hnd := exposure_fold_nodup (extractAccounts data) initState.lender_exposure
        (by simp [initState])
      have := mem_of_nodup_keys expL hnd p hp3
      rw [this, exposure_fold_lookup]
      simp [initState, lookupN, lenderExposureSum]
  · exact List.Pairwise.sublist (List.take_sublist 3 _)
      (List.sorted_insertionSort expGE expL)



/-- C10 witness: the bound at a four-lender report. -/
theorem claim_C10_witness :
    (analyzeCore fourLenderInput refDate).top_lenders.length ≤ 3 :=
  (claim_C10 fourLenderInput refDate (analyzeCore fourLenderInput refDate) rfl).1

end Cibil
